import Mathlib

/-!
Verification of the NEO-DFT electron-proton correlation (EPC) module
(pyscf/neo/ks.py): the pointwise EPC functional evaluator, the grid-block
integration loop of InteractionCorrelation.get_vint, the per-component
accumulation of tagged interaction contributions in KS.get_vint, and the
correlation-energy bookkeeping of KS.energy_elec.

Numpy arrays of densities are embedded as lists of reals (the functional is
elementwise), basis-space matrices as real matrices indexed by naturals with
an explicit basis dimension (numpy arrays carry their shape dynamically), and
fallible configuration parsing as Except.
-/

set_option maxHeartbeats 1000000

/-- An EPC functional specification: either a bare preset string or a dict
with keys epc_type (optional, numpy-side default is applied on read), a, b, c
(each absent when the dict omits the key) and epc_nuc. -/
structure EpcDict where
  epc_type : Option String
  a : Option ℝ
  b : Option ℝ
  c : Option ℝ
  epc_nuc : List ℕ

/-- The two run-time shapes of the epc argument in the source: a str or a
dict (`isinstance(epc, dict)` dispatch in eval_epc). -/
inductive EpcSpec where
  | preset (s : String)
  | dict (d : EpcDict)

/-- The params table of eval_epc (ks.py lines 35-40). -/
noncomputable def epcParams (s : String) : Option (ℝ × ℝ × ℝ) :=
  if s = "17-1" then some (2.35, 2.4, 3.2)
  else if s = "17-2" then some (2.35, 2.4, 6.6)
  else if s = "18-1" then some (1.8, 0.1, 0.03)
  else if s = "18-2" then some (3.9, 0.5, 0.06)
  else none

/-- The parse step of eval_epc (ks.py lines 41-56): dict specs of family
"17"/"18" must carry a, b, c (a missing key raises KeyError in Python);
any other epc_type string, and bare strings, are looked up in the preset
table (ValueError when absent, including epc = None which falls into the
str branch and fails the lookup). A missing epc_type key defaults
to "17-2". -/
noncomputable def resolveEpc : Option EpcSpec → Except String (String × ℝ × ℝ × ℝ)
  | some (.dict d) =>
    let t := d.epc_type.getD "17-2"
    if t = "17" ∨ t = "18" then
      match d.a, d.b, d.c with
      | some a, some b, some c => .ok (t, a, b, c)
      | none, _, _ => .error "KeyError: a"
      | some _, none, _ => .error "KeyError: b"
      | some _, some _, none => .error "KeyError: c"
    else
      match epcParams t with
      | some (a, b, c) => .ok (t, a, b, c)
      | none => .error ("Unknown EPC type: " ++ t)
  | some (.preset s) =>
    match epcParams s with
    | some (a, b, c) => .ok (s, a, b, c)
    | none => .error ("Unknown EPC type: " ++ s)
  | none => .error "Unknown EPC type: None"

/-- Python str.startswith, modelled over the character-list representation
of strings. -/
def strStartsWith (s pre : String) : Bool := pre.data.isPrefixOf s.data

/-- EPC17 pointwise form (ks.py lines 59-75): one grid point with electron
density re and nuclear density rn; returns (exc, vxc_n, vxc_e). -/
noncomputable def epc17 (a b c re rn : ℝ) : ℝ × ℝ × ℝ :=
  let rho_prod := re * rn
  let rho_sqrt := Real.sqrt rho_prod
  let denom := a - b * rho_sqrt + c * rho_prod
  let denom2 := denom * denom
  (-re / denom,
   (-a * re + 0.5 * b * re * rho_sqrt) / denom2,
   (-a * rn + 0.5 * b * rn * rho_sqrt) / denom2)

/-- numpy.cbrt: the real (sign-preserving) cube root. -/
noncomputable def cbrt (x : ℝ) : ℝ :=
  if x < 0 then -((-x) ^ ((1 : ℝ) / 3)) else x ^ ((1 : ℝ) / 3)

/-- EPC18 pointwise form (ks.py lines 76-99); returns (exc, vxc_n, vxc_e).
Note the extra leading negation on both potentials relative to EPC17. -/
noncomputable def epc18 (a b c re rn : ℝ) : ℝ × ℝ × ℝ :=
  let rho_e_cbrt := cbrt re
  let rho_n_cbrt := cbrt rn
  let beta := rho_e_cbrt + rho_n_cbrt
  let beta2 := beta * beta
  let beta3 := beta * beta2
  let beta5 := beta2 * beta3
  let beta6 := beta3 * beta3
  let denom := a - b * beta3 + c * beta6
  let denom2 := denom * denom
  (-re / denom,
   -(a * re - b * rho_e_cbrt ^ 4 * beta2 + c * (re * beta5) * (rho_e_cbrt - rho_n_cbrt)) / denom2,
   -(a * rn - b * rho_n_cbrt ^ 4 * beta2 + c * (rn * beta5) * (rho_n_cbrt - rho_e_cbrt)) / denom2)

/-- Family selection of eval_epc (ks.py line 59): epc_type.startswith('17')
chooses the EPC17 form, everything else the EPC18 form. -/
noncomputable def epcPoint (t : String) (a b c re rn : ℝ) : ℝ × ℝ × ℝ :=
  if strStartsWith t "17" then epc17 a b c re rn else epc18 a b c re rn

/-- eval_epc (ks.py lines 15-101): parse the specification, then evaluate the
selected family elementwise on the two density arrays, returning
(exc, vxc_n, vxc_e). -/
noncomputable def eval_epc (epc : Option EpcSpec) (rho_e rho_n : List ℝ) :
    Except String (List ℝ × List ℝ × List ℝ) :=
  match resolveEpc epc with
  | .error msg => .error msg
  | .ok (t, a, b, c) =>
    if strStartsWith t "17" then
      .ok (List.zipWith (fun re rn => (epc17 a b c re rn).1) rho_e rho_n,
           List.zipWith (fun re rn => (epc17 a b c re rn).2.1) rho_e rho_n,
           List.zipWith (fun re rn => (epc17 a b c re rn).2.2) rho_e rho_n)
    else
      .ok (List.zipWith (fun re rn => (epc18 a b c re rn).1) rho_e rho_n,
           List.zipWith (fun re rn => (epc18 a b c re rn).2.1) rho_e rho_n,
           List.zipWith (fun re rn => (epc18 a b c re rn).2.2) rho_e rho_n)

/-- Family-17 energy density exactly as the specification writes it. -/
noncomputable def specExc17 (a b c re rn : ℝ) : ℝ :=
  -re / (a - b * Real.sqrt (re * rn) + c * (re * rn))

/-- Family-17 nuclear potential exactly as the specification writes it. -/
noncomputable def specVn17 (a b c re rn : ℝ) : ℝ :=
  (-a * re + 0.5 * b * re * Real.sqrt (re * rn)) /
    (a - b * Real.sqrt (re * rn) + c * (re * rn)) ^ 2

/-- Family-17 electronic potential exactly as the specification writes it. -/
noncomputable def specVe17 (a b c re rn : ℝ) : ℝ :=
  (-a * rn + 0.5 * b * rn * Real.sqrt (re * rn)) /
    (a - b * Real.sqrt (re * rn) + c * (re * rn)) ^ 2

/-- Family-18 energy density exactly as the specification writes it, with
cube roots written as real powers of one third (densities are
non-negative). -/
noncomputable def specExc18 (a b c re rn : ℝ) : ℝ :=
  -re / (a - b * (re ^ ((1 : ℝ) / 3) + rn ^ ((1 : ℝ) / 3)) ^ 3 +
    c * (re ^ ((1 : ℝ) / 3) + rn ^ ((1 : ℝ) / 3)) ^ 6)

/-- Family-18 nuclear potential exactly as the specification writes it. -/
noncomputable def specVn18 (a b c re rn : ℝ) : ℝ :=
  -(a * re - b * (re ^ ((1 : ℝ) / 3)) ^ 4 * (re ^ ((1 : ℝ) / 3) + rn ^ ((1 : ℝ) / 3)) ^ 2 +
      c * re * (re ^ ((1 : ℝ) / 3) + rn ^ ((1 : ℝ) / 3)) ^ 5 *
        (re ^ ((1 : ℝ) / 3) - rn ^ ((1 : ℝ) / 3))) /
    (a - b * (re ^ ((1 : ℝ) / 3) + rn ^ ((1 : ℝ) / 3)) ^ 3 +
      c * (re ^ ((1 : ℝ) / 3) + rn ^ ((1 : ℝ) / 3)) ^ 6) ^ 2

/-- Family-18 electronic potential exactly as the specification writes it. -/
noncomputable def specVe18 (a b c re rn : ℝ) : ℝ :=
  -(a * rn - b * (rn ^ ((1 : ℝ) / 3)) ^ 4 * (re ^ ((1 : ℝ) / 3) + rn ^ ((1 : ℝ) / 3)) ^ 2 +
      c * rn * (re ^ ((1 : ℝ) / 3) + rn ^ ((1 : ℝ) / 3)) ^ 5 *
        (rn ^ ((1 : ℝ) / 3) - re ^ ((1 : ℝ) / 3))) /
    (a - b * (re ^ ((1 : ℝ) / 3) + rn ^ ((1 : ℝ) / 3)) ^ 3 +
      c * (re ^ ((1 : ℝ) / 3) + rn ^ ((1 : ℝ) / 3)) ^ 6) ^ 2

/-- Basis-space matrices. numpy arrays carry their shape at run time, so
matrices are embedded as real matrices indexed by all naturals together with
an explicit active dimension (the nao of the component) where a sum over the
basis is taken. -/
abbrev NpMat := Matrix ℕ ℕ ℝ

/-- A density-matrix entry of the dm dict: a plain matrix, or a pair of spin
channels (dm.ndim > 2 in the source). -/
inductive DmVal where
  | single (m : NpMat)
  | spinPair (m0 m1 : NpMat)

/-- Spin-channel flattening applied to the electronic density matrix
(ks.py lines 153-154: dm_e = dm_e[0] + dm_e[1] when dm_e.ndim > 2). -/
def DmVal.flat : DmVal → NpMat
  | .single m => m
  | .spinPair m0 m1 => m0 + m1

/-- One quadrature point of a grid block: its weight and the values of the
electronic and nuclear basis functions there (eval_ao oracles). -/
structure GridPt where
  weight : ℝ
  aoE : ℕ → ℝ
  aoN : ℕ → ℝ

/-- One block of the grid loop: its quadrature points and the nuclear
screening mask slice non0tab_n[p0//BLKSIZE : p1//BLKSIZE+1]. -/
structure GridBlock where
  pts : List GridPt
  maskN : List ℕ

/-- Block skipping (ks.py lines 168-170): a block contributes nothing when
every entry of its nuclear mask slice is zero. -/
def GridBlock.skipped (b : GridBlock) : Bool :=
  b.maskN.all (fun m => m == 0)

/-- Modelled from the spec: eval_rho (pyscf.dft.numint, outside this
repository) evaluates a component's density at a grid point from its basis
values and density matrix. -/
noncomputable def evalRho (nao : ℕ) (dm : NpMat) (ao : ℕ → ℝ) : ℝ :=
  Finset.sum (Finset.range nao) fun i =>
    Finset.sum (Finset.range nao) fun j => ao i * dm i j * ao j

/-- The negative-density clamp rho[rho < 0] = 0 (ks.py lines 173 and 177). -/
noncomputable def clamp0 (x : ℝ) : ℝ := if x < 0 then 0 else x

/-- The contribution of one non-skipped block (ks.py lines 172-189):
the weighted correlation energy dot(rho_n * weight, exc), and the two
half-weighted potential-matrix accumulations. _scale_ao followed by
_dot_ao_ao (and its sparse-screened variant, which the spec declares
numerically equivalent; both live in pyscf.dft.numint, outside this
repository, and are modelled from the spec as the weighted products
ao.T @ diag(0.5 * weight * vxc) @ ao). -/
noncomputable def blockContrib (t : String) (a b c : ℝ) (naoE naoN : ℕ)
    (dmE dmN : NpMat) (blk : GridBlock) : ℝ × NpMat × NpMat :=
  ((blk.pts.map fun p =>
      clamp0 (evalRho naoN dmN p.aoN) * p.weight *
        (epcPoint t a b c (clamp0 (evalRho naoE dmE p.aoE))
          (clamp0 (evalRho naoN dmN p.aoN))).1).sum,
   Matrix.of fun i j =>
     (blk.pts.map fun p =>
       p.aoE i * (0.5 * p.weight *
         (epcPoint t a b c (clamp0 (evalRho naoE dmE p.aoE))
           (clamp0 (evalRho naoN dmN p.aoN))).2.2) * p.aoE j).sum,
   Matrix.of fun i j =>
     (blk.pts.map fun p =>
       p.aoN i * (0.5 * p.weight *
         (epcPoint t a b c (clamp0 (evalRho naoE dmE p.aoE))
           (clamp0 (evalRho naoN dmN p.aoN))).2.1) * p.aoN j).sum)

/-- One iteration of the block loop (ks.py lines 164-189), accumulating
(exc_sum, vxc_e, vxc_n). eval_epc is invoked with the configured spec on the
block's clamped densities; a configuration error propagates from the first
non-skipped block. -/
noncomputable def epcBlockStep (epc : Option EpcSpec) (naoE naoN : ℕ)
    (dmE dmN : NpMat) (acc : ℝ × NpMat × NpMat) (blk : GridBlock) :
    Except String (ℝ × NpMat × NpMat) :=
  if blk.skipped then .ok acc
  else
    match resolveEpc epc with
    | .error msg => .error msg
    | .ok (t, a, b, c) =>
      .ok (acc.1 + (blockContrib t a b c naoE naoN dmE dmN blk).1,
           acc.2.1 + (blockContrib t a b c naoE naoN dmE dmN blk).2.1,
           acc.2.2 + (blockContrib t a b c naoE naoN dmE dmN blk).2.2)

/-- The grid integration of InteractionCorrelation.get_vint (ks.py lines
149-192): run the block loop from zero accumulators, then symmetrize both
potential matrices (vxc = vxc + vxc.conj().T; the matrices are real). -/
noncomputable def gridIntegrate (epc : Option EpcSpec) (naoE naoN : ℕ)
    (blocks : List GridBlock) (dmE dmN : NpMat) :
    Except String (ℝ × NpMat × NpMat) :=
  match blocks.foldlM (epcBlockStep epc naoE naoN dmE dmN) ((0 : ℝ), (0 : NpMat), (0 : NpMat)) with
  | .error msg => .error msg
  | .ok r => .ok (r.1, r.2.1 + Matrix.transpose r.2.1, r.2.2 + Matrix.transpose r.2.2)

/-- A lib.tag_array value: a matrix that may carry the attributes
(exc, vj) — the accumulated correlation energy and the raw Coulomb
sub-matrix. Untagged matrices have tag = none. -/
structure TagArr (M : Type) where
  mat : M
  tag : Option (ℝ × M)

/-- The InteractionCorrelation object (ks.py lines 103-124): the two member
component tags, each member's chemical symbol
(mol.super_mol.atom_pure_symbol(mol.atom_index), external mol data), its
atom index, its basis size, and the configured epc specification. -/
structure InteractionCorrelation where
  mf1_type : String
  mf2_type : String
  mf1_symbol : String
  mf2_symbol : String
  mf1_index : ℕ
  mf2_index : ℕ
  nao1 : ℕ
  nao2 : ℕ
  epc : Option EpcSpec

/-- The per-nucleus restriction in _need_epc: a bare str preset applies to
every qualifying nucleus, a dict applies only when the nucleus index is in
epc_nuc (isinstance(self.epc, str) or atom_index in self.epc['epc_nuc']). -/
def epcAllows (e : EpcSpec) (idx : ℕ) : Bool :=
  match e with
  | .preset _ => true
  | .dict d => d.epc_nuc.contains idx

/-- InteractionCorrelation._need_epc (ks.py lines 109-124). -/
def InteractionCorrelation.need_epc (I : InteractionCorrelation) : Bool :=
  match I.epc with
  | none => false
  | some e =>
    ((I.mf1_type == "e") && strStartsWith I.mf2_type "n" &&
      (I.mf2_symbol == "H") && epcAllows e I.mf2_index) ||
    ((I.mf2_type == "e") && strStartsWith I.mf1_type "n" &&
      (I.mf1_symbol == "H") && epcAllows e I.mf1_index)

/-- Modelled from the spec: the base Coulomb result of
hf.InteractionCoulomb.get_vint (pyscf/neo/hf.py, outside this repository) —
a dict holding, for each of the two member tags, that member's untagged
Coulomb matrix; the matrices themselves are supplied by the vj oracle. -/
def coulombResult (I : InteractionCorrelation) (vj : String → NpMat) :
    String → Option (TagArr NpMat) :=
  fun s => if s == I.mf1_type || s == I.mf2_type then some ⟨vj s, none⟩ else none

/-- InteractionCorrelation.get_vint (ks.py lines 126-197): always compute the
Coulomb result first; fall back to it unmodified unless both members'
density matrices are present and _need_epc holds; otherwise orient the pair
so that mf_e is the electron component (lines 132-139), run the grid
integration, and return the Coulomb-plus-correlation matrices for keys 'e'
and n_type, each tagged with (exc := exc_sum, vj := the raw Coulomb
matrix). -/
noncomputable def InteractionCorrelation.get_vint (I : InteractionCorrelation)
    (vj : String → NpMat) (blocks : List GridBlock)
    (dm : String → Option DmVal) : Except String (String → Option (TagArr NpMat)) :=
  if (dm I.mf1_type).isSome && (dm I.mf2_type).isSome && I.need_epc then
    let eFirst := I.mf1_type == "e"
    let n_type := if eFirst then I.mf2_type else I.mf1_type
    let naoE := if eFirst then I.nao1 else I.nao2
    let naoN := if eFirst then I.nao2 else I.nao1
    match (if eFirst then dm I.mf1_type else dm I.mf2_type),
          (if eFirst then dm I.mf2_type else dm I.mf1_type) with
    | some de, some (DmVal.single dn) =>
      match gridIntegrate I.epc naoE naoN blocks de.flat dn with
      | .error msg => .error msg
      | .ok r =>
        .ok fun s =>
          if s == "e" then some ⟨vj "e" + r.2.1, some (r.1, vj "e")⟩
          else if s == n_type then some ⟨vj n_type + r.2.2, some (r.1, vj n_type)⟩
          else none
    | _, _ => .error "dm shape"
  else
    .ok (coulombResult I vj)

/-- The per-pair accumulation step of KS.get_vint (ks.py lines 270-288):
merge a pair's contribution v for one component into that component's
accumulator vint, handling the tag_array attributes exc and vj exactly as
the source does in its four hasattr cases. -/
def getVintMerge {M : Type} [Add M] (vint v : TagArr M) : TagArr M :=
  match v.tag with
  | some vt =>
    match vint.tag with
    | some pt => ⟨vint.mat + v.mat, some (pt.1 + vt.1, pt.2 + vt.2)⟩
    | none => ⟨vint.mat + v.mat, some (vt.1, vt.2)⟩
  | none =>
    match vint.tag with
    | some pt => ⟨vint.mat + v.mat, some (pt.1, pt.2 + v.mat)⟩
    | none => ⟨vint.mat + v.mat, none⟩

/-- The accumulator for one component in KS.get_vint: start from the
untagged scalar zero (vint[t] = 0, ks.py line 269) and merge the
contributions of the interaction pairs touching the component in
iteration order. -/
def getVintAccum {M : Type} [AddCommMonoid M] (vs : List (TagArr M)) : TagArr M :=
  vs.foldl getVintMerge ⟨0, none⟩

/-- A component entry of the vhf dict in KS.energy_elec: the intra-component
effective potential, carrying an exc attribute when tagged (nuclear RHF
components carry none). -/
structure VhfArr where
  mat : NpMat
  exc : Option ℝ

/-- One component step of the vhf mutation in KS.energy_elec (ks.py lines
244-246): when both vhf[t] and vint[t] carry an exc attribute, execute
vhf[t].exc += vint[t].exc on the vhf map; otherwise leave it unchanged. -/
def vhfStep (vint : String → TagArr NpMat) (f : String → VhfArr) (t : String) :
    String → VhfArr :=
  match (f t).exc, (vint t).tag with
  | some e1, some p => fun s => if s == t then ⟨(f t).mat, some (e1 + p.1)⟩ else f s
  | _, _ => f

/-- The cumulative in-place effect of one KS.energy_elec call on its vhf
argument (ks.py lines 242-246), as an explicit state transformer over the
component list. -/
def energyElecVhf (comps : List String) (vhf : String → VhfArr)
    (vint : String → TagArr NpMat) : String → VhfArr :=
  comps.foldl (vhfStep vint) vhf

/-- The four recognized preset identifiers of the configuration surface. -/
def recognizedPresets : List String := ["17-1", "17-2", "18-1", "18-2"]

/-- Stated from the specification: eval_epc must fail with a configuration
error exactly when a named preset identifier (a bare string, or the
epc_type of a dict that is not the explicit family "17"/"18") is not one
of the four recognized identifiers, or when an explicit family-"17"/"18"
record omits a, b or c. -/
def configError : EpcSpec → Bool
  | .preset s => !(recognizedPresets.contains s)
  | .dict d =>
    let t := d.epc_type.getD "17-2"
    if t = "17" ∨ t = "18" then d.a.isNone || d.b.isNone || d.c.isNone
    else !(recognizedPresets.contains t)

/-- Stated from the specification: a bare preset applies to every
qualifying nucleus; an explicit record applies only to nuclei whose index
lies in its allowed-index set epc_nuc. -/
def allowedIdx : Option EpcSpec → ℕ → Prop
  | some (.preset _), _ => True
  | some (.dict d), i => i ∈ d.epc_nuc
  | none, _ => False

/-- Stated from the specification: the correlation applicability predicate —
correlation is configured, exactly one member of the pair is the electron
component, the other member is a quantum-nucleus component of chemical
species hydrogen, and the spec allows that nucleus's index. -/
def epcApplicable (I : InteractionCorrelation) : Prop :=
  I.epc ≠ none ∧
  ((I.mf1_type = "e" ∧ strStartsWith I.mf2_type "n" = true ∧ I.mf2_symbol = "H" ∧
      allowedIdx I.epc I.mf2_index) ∨
   (I.mf2_type = "e" ∧ strStartsWith I.mf1_type "n" = true ∧ I.mf1_symbol = "H" ∧
      allowedIdx I.epc I.mf1_index))

/-- Stated from the specification: the accumulated correlation energy is the
sum over non-skipped blocks of the sum over grid points of
weight · rho_n · exc, where both densities are the clamped ones and exc is
the EPC energy density. -/
noncomputable def excTotalClaim (t : String) (a b c : ℝ) (naoE naoN : ℕ)
    (dmE dmN : NpMat) (blocks : List GridBlock) : ℝ :=
  ((blocks.filter fun blk => !blk.skipped).map fun blk =>
    (blk.pts.map fun p =>
      p.weight * clamp0 (evalRho naoN dmN p.aoN) *
        (epcPoint t a b c (clamp0 (evalRho naoE dmE p.aoE))
          (clamp0 (evalRho naoN dmN p.aoN))).1).sum).sum

/-- The scenario of C4: an explicit family-18 record restricted to nucleus
index 0, paired with the electron component and a hydrogen nucleus whose
index is 1. -/
noncomputable def scenarioI : InteractionCorrelation :=
  ⟨"e", "n1", "", "H", 0, 1, 2, 2,
    some (.dict ⟨some "18", some 1.8, some 0.1, some 0.03, [0]⟩)⟩

/-- A concrete electron-hydrogen interaction with a valid preset, used for
closed instances. -/
noncomputable def fallbackI : InteractionCorrelation :=
  ⟨"e", "n0", "", "H", 0, 0, 1, 1, some (.preset "17-2")⟩

theorem listZipWithCongr {α β γ : Type} (f g : α → β → γ) :
    ∀ (xs : List α) (ys : List β),
      (∀ x ∈ xs, ∀ y ∈ ys, f x y = g x y) →
      List.zipWith f xs ys = List.zipWith g xs ys := by
  intro xs
  induction xs with
  | nil => intro ys h; simp
  | cons x xs ih =>
    intro ys h
    cases ys with
    | nil => simp
    | cons y ys =>
      simp only [List.zipWith_cons_cons]
      refine congrArg₂ _ (h x (by simp) y (by simp)) (ih ys ?_)
      intro u hu v hv
      exact h u (by simp [hu]) v (by simp [hv])

theorem epc17_point (a b c re rn : ℝ) :
    epc17 a b c re rn =
      (specExc17 a b c re rn, specVn17 a b c re rn, specVe17 a b c re rn) := by
  simp only [epc17, specExc17, specVn17, specVe17, Prod.mk.injEq]
  exact ⟨trivial, by ring, by ring⟩

theorem epc18_point (a b c re rn : ℝ) (hre : 0 ≤ re) (hrn : 0 ≤ rn) :
    epc18 a b c re rn =
      (specExc18 a b c re rn, specVn18 a b c re rn, specVe18 a b c re rn) := by
  have h1 : cbrt re = re ^ ((1 : ℝ) / 3) := by
    unfold cbrt; rw [if_neg (not_lt.mpr hre)]
  have h2 : cbrt rn = rn ^ ((1 : ℝ) / 3) := by
    unfold cbrt; rw [if_neg (not_lt.mpr hrn)]
  simp only [epc18, specExc18, specVn18, specVe18, h1, h2, Prod.mk.injEq]
  refine ⟨by ring, by ring, by ring⟩

/-- C1: for equal-shaped non-negative density arrays and any functional
specification resolving to family 17 with parameters (a, b, c), eval_epc
returns exactly the family-17 triple exc = -rho_e/D,
vxc_n = (-a rho_e + 0.5 b rho_e s)/D^2, vxc_e = (-a rho_n + 0.5 b rho_n s)/D^2
with s = sqrt(rho_e rho_n) and D = a - b s + c rho_e rho_n, elementwise, and
each returned array has the common input length. -/
theorem eval_epc_family17 (epc : Option EpcSpec) (t : String) (a b c : ℝ)
    (rho_e rho_n : List ℝ)
    (hres : resolveEpc epc = .ok (t, a, b, c))
    (h17 : strStartsWith t "17" = true)
    (hlen : rho_e.length = rho_n.length)
    (hposE : ∀ x ∈ rho_e, 0 ≤ x) (hposN : ∀ y ∈ rho_n, 0 ≤ y) :
    eval_epc epc rho_e rho_n =
      .ok (List.zipWith (specExc17 a b c) rho_e rho_n,
           List.zipWith (specVn17 a b c) rho_e rho_n,
           List.zipWith (specVe17 a b c) rho_e rho_n) ∧
    (List.zipWith (specExc17 a b c) rho_e rho_n).length = rho_e.length ∧
    (List.zipWith (specVn17 a b c) rho_e rho_n).length = rho_e.length ∧
    (List.zipWith (specVe17 a b c) rho_e rho_n).length = rho_e.length := by
  refine ⟨?_, ?_, ?_, ?_⟩
  · unfold eval_epc
    rw [hres]
    simp only [h17, if_true]
    refine congrArg _ ?_
    refine congrArg₂ _ ?_ (congrArg₂ _ ?_ ?_) <;>
      refine listZipWithCongr _ _ _ _ fun x hx y hy => ?_ <;>
      rw [epc17_point]
  · simp [List.length_zipWith]; omega
  · simp [List.length_zipWith]; omega
  · simp [List.length_zipWith]; omega

theorem eval_epc_family17_witness :
    resolveEpc (some (.preset "17-2")) = .ok ("17-2", 2.35, 2.4, 6.6) ∧
    strStartsWith "17-2" "17" = true ∧
    eval_epc (some (.preset "17-2")) [0] [0] =
      .ok (List.zipWith (specExc17 2.35 2.4 6.6) [0] [0],
           List.zipWith (specVn17 2.35 2.4 6.6) [0] [0],
           List.zipWith (specVe17 2.35 2.4 6.6) [0] [0]) :=
  ⟨rfl, rfl,
    (eval_epc_family17 (some (.preset "17-2")) "17-2" 2.35 2.4 6.6 [0] [0]
      rfl rfl rfl (by simp) (by simp)).1⟩

/-- C2: for equal-shaped non-negative density arrays and any functional
specification resolving to family 18 with parameters (a, b, c), eval_epc
returns exactly the family-18 triple with cA = rho_e^(1/3),
cB = rho_n^(1/3), beta = cA + cB, D = a - b beta^3 + c beta^6:
exc = -rho_e/D, vxc_n = -(a rho_e - b cA^4 beta^2 + c rho_e beta^5 (cA-cB))/D^2,
vxc_e = -(a rho_n - b cB^4 beta^2 + c rho_n beta^5 (cB-cA))/D^2 — with the
extra leading negation absent from family 17 — and each returned array has
the common input length. -/
theorem eval_epc_family18 (epc : Option EpcSpec) (t : String) (a b c : ℝ)
    (rho_e rho_n : List ℝ)
    (hres : resolveEpc epc = .ok (t, a, b, c))
    (h18 : strStartsWith t "17" = false)
    (hlen : rho_e.length = rho_n.length)
    (hposE : ∀ x ∈ rho_e, 0 ≤ x) (hposN : ∀ y ∈ rho_n, 0 ≤ y) :
    eval_epc epc rho_e rho_n =
      .ok (List.zipWith (specExc18 a b c) rho_e rho_n,
           List.zipWith (specVn18 a b c) rho_e rho_n,
           List.zipWith (specVe18 a b c) rho_e rho_n) ∧
    (List.zipWith (specExc18 a b c) rho_e rho_n).length = rho_e.length ∧
    (List.zipWith (specVn18 a b c) rho_e rho_n).length = rho_e.length ∧
    (List.zipWith (specVe18 a b c) rho_e rho_n).length = rho_e.length := by
  refine ⟨?_, ?_, ?_, ?_⟩
  · unfold eval_epc
    rw [hres]
    simp only [h18, Bool.false_eq_true, if_false]
    refine congrArg _ ?_
    refine congrArg₂ _ ?_ (congrArg₂ _ ?_ ?_) <;>
      refine listZipWithCongr _ _ _ _ fun x hx y hy => ?_ <;>
      rw [epc18_point a b c x y (hposE x hx) (hposN y hy)]
  · simp [List.length_zipWith]; omega
  · simp [List.length_zipWith]; omega
  · simp [List.length_zipWith]; omega

theorem eval_epc_family18_witness :
    resolveEpc (some (.preset "18-1")) = .ok ("18-1", 1.8, 0.1, 0.03) ∧
    strStartsWith "18-1" "17" = false ∧
    eval_epc (some (.preset "18-1")) [0] [0] =
      .ok (List.zipWith (specExc18 1.8 0.1 0.03) [0] [0],
           List.zipWith (specVn18 1.8 0.1 0.03) [0] [0],
           List.zipWith (specVe18 1.8 0.1 0.03) [0] [0]) :=
  ⟨rfl, rfl,
    (eval_epc_family18 (some (.preset "18-1")) "18-1" 1.8 0.1 0.03 [0] [0]
      rfl rfl rfl (by simp) (by simp)).1⟩

/-- C6: the four named presets resolve to their fixed parameter triples, and
an explicit record of family "17" or "18" resolves to its own a, b, c. -/
theorem epc_spec_resolution :
    resolveEpc (some (.preset "17-1")) = .ok ("17-1", 2.35, 2.4, 3.2) ∧
    resolveEpc (some (.preset "17-2")) = .ok ("17-2", 2.35, 2.4, 6.6) ∧
    resolveEpc (some (.preset "18-1")) = .ok ("18-1", 1.8, 0.1, 0.03) ∧
    resolveEpc (some (.preset "18-2")) = .ok ("18-2", 3.9, 0.5, 0.06) ∧
    (∀ (a b c : ℝ) (nuc : List ℕ),
      resolveEpc (some (.dict ⟨some "17", some a, some b, some c, nuc⟩)) =
        .ok ("17", a, b, c)) ∧
    (∀ (a b c : ℝ) (nuc : List ℕ),
      resolveEpc (some (.dict ⟨some "18", some a, some b, some c, nuc⟩)) =
        .ok ("18", a, b, c)) :=
  ⟨rfl, rfl, rfl, rfl, fun a b c nuc => rfl, fun a b c nuc => rfl⟩

theorem epcParams_none_iff (t : String) :
    epcParams t = none ↔ recognizedPresets.contains t = false := by
  unfold epcParams recognizedPresets
  split_ifs with h1 h2 h3 h4 <;> simp_all [eq_comm]

theorem resolveEpc_error_iff (e : EpcSpec) :
    (∃ msg, resolveEpc (some e) = .error msg) ↔ configError e = true := by
  cases e with
  | preset s =>
    simp only [resolveEpc, configError]
    cases hp : epcParams s with
    | none =>
      have hm : s ∉ recognizedPresets := by
        simpa using (epcParams_none_iff s).mp hp
      simp [hm]
    | some v =>
      obtain ⟨a, b, c⟩ := v
      have hc : recognizedPresets.contains s = true := by
        by_contra hcc
        rw [Bool.not_eq_true, ← epcParams_none_iff] at hcc
        rw [hp] at hcc
        cases hcc
      have hm : s ∈ recognizedPresets := by simpa using hc
      simp [hm]
  | dict d =>
    simp only [resolveEpc, configError]
    by_cases ht : d.epc_type.getD "17-2" = "17" ∨ d.epc_type.getD "17-2" = "18"
    · rw [if_pos ht, if_pos ht]
      cases ha : d.a with
      | none => simp [ha]
      | some a =>
        cases hb2 : d.b with
        | none => simp [ha, hb2]
        | some b =>
          cases hc2 : d.c with
          | none => simp [ha, hb2, hc2]
          | some c => simp [ha, hb2, hc2]
    · rw [if_neg ht, if_neg ht]
      cases hp : epcParams (d.epc_type.getD "17-2") with
      | none =>
        have hm : d.epc_type.getD "17-2" ∉ recognizedPresets := by
          simpa using (epcParams_none_iff _).mp hp
        simp [hm]
      | some v =>
        obtain ⟨a, b, c⟩ := v
        have hc : recognizedPresets.contains (d.epc_type.getD "17-2") = true := by
          by_contra hcc
          rw [Bool.not_eq_true, ← epcParams_none_iff] at hcc
          rw [hp] at hcc
          cases hcc
        have hm : d.epc_type.getD "17-2" ∈ recognizedPresets := by simpa using hc
        simp [hm]

/-- C7: eval_epc fails, independently of the density arrays and before any
arithmetic on them, exactly when the named preset (a bare string or a dict
epc_type outside the explicit families) is unrecognized, or when an explicit
family-"17"/"18" record omits a, b or c. -/
theorem eval_epc_error_characterization (e : EpcSpec) (rho_e rho_n : List ℝ) :
    (∃ msg, eval_epc (some e) rho_e rho_n = .error msg) ↔ configError e = true := by
  rw [← resolveEpc_error_iff]
  unfold eval_epc
  cases hr : resolveEpc (some e) with
  | error msg => simp
  | ok v =>
    obtain ⟨t, a, b, c⟩ := v
    by_cases h17 : strStartsWith t "17" = true <;> simp [h17]

/-- C4: _need_epc holds exactly when correlation is configured, one member
is the electron component, the other is a hydrogen quantum nucleus, and the
spec is a bare preset or an explicit record whose epc_nuc contains the
nucleus index; and in the scenario of an explicit family-18 record with
epc_nuc = {0} paired with the only hydrogen nucleus at index 1, the
predicate is false and get_vint returns the pure Coulomb result. -/
theorem need_epc_characterization :
    (∀ I : InteractionCorrelation, I.need_epc = true ↔ epcApplicable I) ∧
    scenarioI.need_epc = false ∧
    (∀ (vj : String → NpMat) (blocks : List GridBlock) (dm : String → Option DmVal),
      scenarioI.get_vint vj blocks dm = .ok (coulombResult scenarioI vj)) := by
  refine ⟨?_, rfl, ?_⟩
  · intro I
    unfold InteractionCorrelation.need_epc epcApplicable
    cases hepc : I.epc with
    | none => simp
    | some e =>
      cases e with
      | preset s =>
        simp [epcAllows, allowedIdx, hepc, Bool.or_eq_true, Bool.and_eq_true,
          beq_iff_eq, and_assoc]
      | dict d =>
        simp [epcAllows, allowedIdx, hepc, Bool.or_eq_true, Bool.and_eq_true,
          beq_iff_eq, and_assoc]
  · intro vj blocks dm
    have h : scenarioI.need_epc = false := rfl
    unfold InteractionCorrelation.get_vint
    rw [h]
    simp

/-- C5: whenever either member's density matrix is absent from the supplied
density map, or the correlation predicate is false, get_vint returns exactly
the base Coulomb result, untagged and without error. -/
theorem get_vint_coulomb_fallback (I : InteractionCorrelation)
    (vj : String → NpMat) (blocks : List GridBlock) (dm : String → Option DmVal)
    (h : (dm I.mf1_type).isSome = false ∨ (dm I.mf2_type).isSome = false ∨
      I.need_epc = false) :
    I.get_vint vj blocks dm = .ok (coulombResult I vj) := by
  unfold InteractionCorrelation.get_vint
  have hc : ((dm I.mf1_type).isSome && (dm I.mf2_type).isSome && I.need_epc) = false := by
    rcases h with h | h | h <;> simp [h]
  rw [hc]
  simp

theorem get_vint_coulomb_fallback_witness :
    ((fun _ : String => (none : Option DmVal)) fallbackI.mf1_type).isSome = false ∧
    fallbackI.get_vint (fun _ => 0) [] (fun _ => none) =
      .ok (coulombResult fallbackI (fun _ => 0)) :=
  ⟨rfl, get_vint_coulomb_fallback fallbackI (fun _ => 0) [] (fun _ => none)
    (Or.inl rfl)⟩

/-- C3 fails on the code: the KS.get_vint accumulation is NOT
order-independent. Merging an untagged contribution with matrix 1 before a
tagged one with raw-Coulomb 0 leaves the raw-Coulomb tag at 0 (the untagged
accumulator is dropped from vj), while the opposite order yields 1; the
claimed commutative merge rule would give 1 in both orders. -/
theorem getVintMerge_order_dependent :
    getVintAccum [TagArr.mk (1 : ℝ) none, TagArr.mk 0 (some (0, 0))] ≠
      getVintAccum [TagArr.mk (0 : ℝ) (some (0, 0)), TagArr.mk 1 none] := by
  intro h
  have h2 := congrArg TagArr.tag h
  simp [getVintAccum, getVintMerge] at h2
  have h3 := congrArg Prod.snd h2
  norm_num at h3

theorem listMapCongrMem {α β : Type} (f g : α → β) :
    ∀ l : List α, (∀ x ∈ l, f x = g x) → l.map f = l.map g := by
  intro l
  induction l with
  | nil => intro; rfl
  | cons x xs ih =>
    intro h
    simp only [List.map_cons]
    rw [h x (by simp), ih fun u hu => h u (by simp [hu])]

theorem epcBlockStep_ok {epc : Option EpcSpec} {t : String} {a b c : ℝ}
    {naoE naoN : ℕ} {dmE dmN : NpMat}
    (h : resolveEpc epc = .ok (t, a, b, c)) (acc : ℝ × NpMat × NpMat)
    (blk : GridBlock) :
    epcBlockStep epc naoE naoN dmE dmN acc blk =
      .ok (if blk.skipped then acc else
        (acc.1 + (blockContrib t a b c naoE naoN dmE dmN blk).1,
         acc.2.1 + (blockContrib t a b c naoE naoN dmE dmN blk).2.1,
         acc.2.2 + (blockContrib t a b c naoE naoN dmE dmN blk).2.2)) := by
  unfold epcBlockStep
  rw [h]
  by_cases hs : blk.skipped <;> simp [hs]

theorem epcLoopFold {epc : Option EpcSpec} {t : String} {a b c : ℝ}
    {naoE naoN : ℕ} {dmE dmN : NpMat}
    (h : resolveEpc epc = .ok (t, a, b, c)) :
    ∀ (blocks : List GridBlock) (acc : ℝ × NpMat × NpMat),
      blocks.foldlM (epcBlockStep epc naoE naoN dmE dmN) acc =
        .ok (acc.1 + ((blocks.filter fun blk => !blk.skipped).map
              (fun blk => (blockContrib t a b c naoE naoN dmE dmN blk).1)).sum,
             acc.2.1 + ((blocks.filter fun blk => !blk.skipped).map
              (fun blk => (blockContrib t a b c naoE naoN dmE dmN blk).2.1)).sum,
             acc.2.2 + ((blocks.filter fun blk => !blk.skipped).map
              (fun blk => (blockContrib t a b c naoE naoN dmE dmN blk).2.2)).sum) := by
  intro blocks
  induction blocks with
  | nil => intro acc; simp [List.foldlM]; rfl
  | cons blk bs ih =>
    intro acc
    rw [List.foldlM_cons, epcBlockStep_ok h]
    have hbind : ∀ (v : ℝ × NpMat × NpMat)
        (f : ℝ × NpMat × NpMat → Except String (ℝ × NpMat × NpMat)),
        (Except.ok v >>= f) = f v := fun _ _ => rfl
    rw [hbind]
    by_cases hs : blk.skipped
    · rw [if_pos hs, ih]
      simp [List.filter_cons, hs]
    · rw [if_neg hs, ih]
      simp [List.filter_cons, hs, add_assoc]

theorem gridIntegrate_eq {epc : Option EpcSpec} {t : String} {a b c : ℝ}
    (naoE naoN : ℕ) (blocks : List GridBlock) (dmE dmN : NpMat)
    (h : resolveEpc epc = .ok (t, a, b, c)) :
    gridIntegrate epc naoE naoN blocks dmE dmN =
      .ok (((blocks.filter fun blk => !blk.skipped).map
              (fun blk => (blockContrib t a b c naoE naoN dmE dmN blk).1)).sum,
           ((blocks.filter fun blk => !blk.skipped).map
              (fun blk => (blockContrib t a b c naoE naoN dmE dmN blk).2.1)).sum +
             Matrix.transpose (((blocks.filter fun blk => !blk.skipped).map
              (fun blk => (blockContrib t a b c naoE naoN dmE dmN blk).2.1)).sum),
           ((blocks.filter fun blk => !blk.skipped).map
              (fun blk => (blockContrib t a b c naoE naoN dmE dmN blk).2.2)).sum +
             Matrix.transpose (((blocks.filter fun blk => !blk.skipped).map
              (fun blk => (blockContrib t a b c naoE naoN dmE dmN blk).2.2)).sum)) := by
  unfold gridIntegrate
  rw [epcLoopFold h blocks ((0 : ℝ), (0 : NpMat), (0 : NpMat))]
  simp

theorem excTotal_eq (t : String) (a b c : ℝ) (naoE naoN : ℕ)
    (dmE dmN : NpMat) (blocks : List GridBlock) :
    ((blocks.filter fun blk => !blk.skipped).map
      (fun blk => (blockContrib t a b c naoE naoN dmE dmN blk).1)).sum =
      excTotalClaim t a b c naoE naoN dmE dmN blocks := by
  unfold excTotalClaim blockContrib
  refine congrArg List.sum (listMapCongrMem _ _ _ fun blk hblk => ?_)
  refine congrArg List.sum (listMapCongrMem _ _ _ fun p hp => ?_)
  ring

/-- C8: in the correlation branch, the exc attached to both returned
potential matrices is exactly the sum over non-skipped blocks of the sum
over grid points of weight · rho_n · exc — weighted by the clamped nuclear
density, not the electronic one. -/
theorem get_vint_exc_total (I : InteractionCorrelation) (vj : String → NpMat)
    (blocks : List GridBlock) (dm : String → Option DmVal) (de : DmVal)
    (dn : NpMat) (t : String) (a b c : ℝ)
    (h1 : I.mf1_type = "e")
    (hde : dm I.mf1_type = some de)
    (hdn : dm I.mf2_type = some (DmVal.single dn))
    (hneed : I.need_epc = true)
    (hres : resolveEpc I.epc = .ok (t, a, b, c)) :
    ∃ vE vN, I.get_vint vj blocks dm = .ok fun s =>
      if s == "e" then
        some ⟨vj "e" + vE,
          some (excTotalClaim t a b c I.nao1 I.nao2 de.flat dn blocks, vj "e")⟩
      else if s == I.mf2_type then
        some ⟨vj I.mf2_type + vN,
          some (excTotalClaim t a b c I.nao1 I.nao2 de.flat dn blocks, vj I.mf2_type)⟩
      else none := by
  have heq : (I.mf1_type == "e") = true := by simp [h1]
  refine ⟨((blocks.filter fun blk => !blk.skipped).map
      (fun blk => (blockContrib t a b c I.nao1 I.nao2 de.flat dn blk).2.1)).sum +
      Matrix.transpose (((blocks.filter fun blk => !blk.skipped).map
      (fun blk => (blockContrib t a b c I.nao1 I.nao2 de.flat dn blk).2.1)).sum),
    ((blocks.filter fun blk => !blk.skipped).map
      (fun blk => (blockContrib t a b c I.nao1 I.nao2 de.flat dn blk).2.2)).sum +
      Matrix.transpose (((blocks.filter fun blk => !blk.skipped).map
      (fun blk => (blockContrib t a b c I.nao1 I.nao2 de.flat dn blk).2.2)).sum), ?_⟩
  rw [← excTotal_eq t a b c I.nao1 I.nao2 de.flat dn blocks]
  unfold InteractionCorrelation.get_vint
  rw [hde, hdn, hneed]
  simp only [heq, Option.isSome_some, Bool.and_self, Bool.and_true, if_true]
  rw [gridIntegrate_eq I.nao1 I.nao2 blocks de.flat dn hres]

theorem get_vint_exc_total_witness :
    fallbackI.mf1_type = "e" ∧
    fallbackI.need_epc = true ∧
    resolveEpc fallbackI.epc = .ok ("17-2", 2.35, 2.4, 6.6) ∧
    (∃ vE vN, fallbackI.get_vint (fun _ => 0) []
        (fun s => if s == "e" then some (DmVal.single 0)
          else if s == "n0" then some (DmVal.single 0) else none) =
      .ok fun s =>
        if s == "e" then
          some ⟨(0 : NpMat) + vE,
            some (excTotalClaim "17-2" 2.35 2.4 6.6 fallbackI.nao1 fallbackI.nao2
              (DmVal.single 0).flat 0 [], 0)⟩
        else if s == fallbackI.mf2_type then
          some ⟨(0 : NpMat) + vN,
            some (excTotalClaim "17-2" 2.35 2.4 6.6 fallbackI.nao1 fallbackI.nao2
              (DmVal.single 0).flat 0 [], 0)⟩
        else none) :=
  ⟨rfl, rfl, rfl,
    get_vint_exc_total fallbackI (fun _ => 0) []
      (fun s => if s == "e" then some (DmVal.single 0)
        else if s == "n0" then some (DmVal.single 0) else none)
      (DmVal.single 0) 0 "17-2" 2.35 2.4 6.6 rfl rfl rfl rfl rfl⟩

theorem gridIntegrate_symm (epc : Option EpcSpec) (naoE naoN : ℕ)
    (blocks : List GridBlock) (dmE dmN : NpMat) (r : ℝ × NpMat × NpMat)
    (h : gridIntegrate epc naoE naoN blocks dmE dmN = .ok r) :
    r.2.1.IsSymm ∧ r.2.2.IsSymm := by
  unfold gridIntegrate at h
  cases hf : blocks.foldlM (epcBlockStep epc naoE naoN dmE dmN)
      ((0 : ℝ), (0 : NpMat), (0 : NpMat)) with
  | error msg => rw [hf] at h; cases h
  | ok q =>
    rw [hf] at h
    cases h
    exact ⟨Matrix.isSymm_add_transpose_self q.2.1,
      Matrix.isSymm_add_transpose_self q.2.2⟩

/-- C9: the grid integration symmetrizes both accumulated potential matrices
as M + M.T, so its output matrices are symmetric; and with symmetric base
Coulomb matrices every matrix entry returned by get_vint (fallback or
tagged) is symmetric. -/
theorem get_vint_symmetric :
    (∀ (epc : Option EpcSpec) (naoE naoN : ℕ) (blocks : List GridBlock)
        (dmE dmN : NpMat) (r : ℝ × NpMat × NpMat),
      gridIntegrate epc naoE naoN blocks dmE dmN = .ok r →
      r.2.1.IsSymm ∧ r.2.2.IsSymm) ∧
    (∀ (I : InteractionCorrelation) (vj : String → NpMat)
        (blocks : List GridBlock) (dm : String → Option DmVal)
        (res : String → Option (TagArr NpMat)) (s : String) (tm : TagArr NpMat),
      (∀ s2, (vj s2).IsSymm) →
      I.get_vint vj blocks dm = .ok res → res s = some tm → tm.mat.IsSymm) := by
  constructor
  · exact gridIntegrate_symm
  · intro I vj blocks dm res s tm hvj hgv hres
    unfold InteractionCorrelation.get_vint at hgv
    by_cases hc : ((dm I.mf1_type).isSome && (dm I.mf2_type).isSome && I.need_epc) = true
    · rw [if_pos hc] at hgv
      simp only [] at hgv
      cases hde : (if I.mf1_type == "e" then dm I.mf1_type else dm I.mf2_type) with
      | none => rw [hde] at hgv; cases hgv
      | some de =>
        cases hdn : (if I.mf1_type == "e" then dm I.mf2_type else dm I.mf1_type) with
        | none => rw [hde, hdn] at hgv; cases hgv
        | some dnv =>
          cases dnv with
          | spinPair m0 m1 => rw [hde, hdn] at hgv; cases hgv
          | single dn =>
            rw [hde, hdn] at hgv
            simp only [] at hgv
            cases hg : gridIntegrate I.epc
                (if I.mf1_type == "e" then I.nao1 else I.nao2)
                (if I.mf1_type == "e" then I.nao2 else I.nao1)
                blocks de.flat dn with
            | error msg => rw [hg] at hgv; cases hgv
            | ok r =>
              rw [hg] at hgv
              cases hgv
              have hsym := gridIntegrate_symm _ _ _ _ _ _ _ hg
              simp only at hres
              by_cases hs1 : (s == "e") = true
              · rw [if_pos hs1] at hres
                cases hres
                exact Matrix.IsSymm.add (hvj "e") hsym.1
              · rw [if_neg hs1] at hres
                by_cases hs2 : (s == (if I.mf1_type == "e" then I.mf2_type
                    else I.mf1_type)) = true
                · rw [if_pos hs2] at hres
                  cases hres
                  exact Matrix.IsSymm.add (hvj _) hsym.2
                · rw [if_neg hs2] at hres
                  cases hres
    · rw [if_neg hc] at hgv
      cases hgv
      unfold coulombResult at hres
      by_cases hs : (s == I.mf1_type || s == I.mf2_type) = true
      · rw [if_pos hs] at hres
        cases hres
        exact hvj s
      · rw [if_neg hs] at hres
        cases hres

theorem get_vint_symmetric_witness :
    gridIntegrate (some (.preset "17-2")) 1 1 [] 0 0 =
      .ok ((0 : ℝ), (0 : NpMat) + Matrix.transpose (0 : NpMat),
        (0 : NpMat) + Matrix.transpose (0 : NpMat)) ∧
    ((0 : NpMat) + Matrix.transpose (0 : NpMat)).IsSymm ∧
    fallbackI.get_vint (fun _ => 0) [] (fun _ => none) =
      .ok (coulombResult fallbackI (fun _ => 0)) ∧
    coulombResult fallbackI (fun _ => 0) "e" = some ⟨0, none⟩ ∧
    (⟨(0 : NpMat), none⟩ : TagArr NpMat).mat.IsSymm :=
  ⟨rfl,
    (get_vint_symmetric.1 (some (.preset "17-2")) 1 1 [] 0 0
      ((0 : ℝ), (0 : NpMat) + Matrix.transpose (0 : NpMat),
        (0 : NpMat) + Matrix.transpose (0 : NpMat)) rfl).1,
    rfl, rfl,
    get_vint_symmetric.2 fallbackI (fun _ => 0) [] (fun _ => none)
      (coulombResult fallbackI (fun _ => 0)) "e" ⟨0, none⟩
      (fun _ => Matrix.isSymm_zero) rfl rfl⟩

theorem vhfStep_other (vint : String → TagArr NpMat) (f : String → VhfArr)
    (u t : String) (h : t ≠ u) : vhfStep vint f u t = f t := by
  unfold vhfStep
  cases (f u).exc with
  | none => rfl
  | some e1 =>
    cases (vint u).tag with
    | none => rfl
    | some p => simp [h]

theorem energyElecVhf_notMem (vint : String → TagArr NpMat) :
    ∀ (cs : List String) (f : String → VhfArr) (t : String), t ∉ cs →
      cs.foldl (vhfStep vint) f t = f t := by
  intro cs
  induction cs with
  | nil => intro f t ht; rfl
  | cons u rest ih =>
    intro f t ht
    rw [List.foldl_cons, ih _ t fun hm => ht (List.mem_cons_of_mem _ hm)]
    exact vhfStep_other vint f u t fun he => ht (he ▸ List.mem_cons_self u rest)

theorem energyElecVhf_exc :
    ∀ (comps : List String) (vhf : String → VhfArr)
      (vint : String → TagArr NpMat) (t : String) (e1 e2 : ℝ) (j : NpMat),
      comps.Nodup → t ∈ comps → (vhf t).exc = some e1 →
      (vint t).tag = some (e2, j) →
      (energyElecVhf comps vhf vint t).exc = some (e1 + e2) := by
  intro comps
  induction comps with
  | nil => intro vhf vint t e1 e2 j hnd ht; cases ht
  | cons u rest ih =>
    intro vhf vint t e1 e2 j hnd ht he hv
    obtain ⟨hu, hrest⟩ := List.nodup_cons.mp hnd
    unfold energyElecVhf
    rw [List.foldl_cons]
    by_cases hteq : t = u
    · subst hteq
      have hstep : vhfStep vint vhf t t = ⟨(vhf t).mat, some (e1 + e2)⟩ := by
        unfold vhfStep
        rw [he, hv]
        simp
      rw [energyElecVhf_notMem vint rest _ t hu, hstep]
    · have hstep : vhfStep vint vhf u t = vhf t := vhfStep_other vint vhf u t hteq
      have htr : t ∈ rest := by
        cases List.mem_cons.mp ht with
        | inl h => exact absurd h hteq
        | inr h => exact h
      exact ih (vhfStep vint vhf u) vint t e1 e2 j hrest htr
        (hstep ▸ he) hv

/-- C10: within one energy_elec call, for each component whose vhf and vint
entries both carry an exc tag, the correlation energy is added once into the
caller's vhf entry; a second call reusing the updated vhf adds it again. -/
theorem energy_elec_vhf_mutation (comps : List String) (vhf : String → VhfArr)
    (vint : String → TagArr NpMat) (t : String) (e1 e2 : ℝ) (j : NpMat)
    (hnd : comps.Nodup) (ht : t ∈ comps)
    (he : (vhf t).exc = some e1) (hv : (vint t).tag = some (e2, j)) :
    (energyElecVhf comps vhf vint t).exc = some (e1 + e2) ∧
    (energyElecVhf comps (energyElecVhf comps vhf vint) vint t).exc =
      some (e1 + e2 + e2) := by
  have h1 := energyElecVhf_exc comps vhf vint t e1 e2 j hnd ht he hv
  exact ⟨h1, energyElecVhf_exc comps (energyElecVhf comps vhf vint) vint t
    (e1 + e2) e2 j hnd ht h1 hv⟩

theorem energy_elec_vhf_mutation_witness :
    ["e"].Nodup ∧ "e" ∈ ["e"] ∧
    ((fun _ : String => VhfArr.mk 0 (some 1)) "e").exc = some 1 ∧
    ((fun _ : String => TagArr.mk (0 : NpMat) (some (2, 0))) "e").tag = some (2, 0) ∧
    (energyElecVhf ["e"] (fun _ => VhfArr.mk 0 (some 1))
        (fun _ => TagArr.mk 0 (some (2, 0))) "e").exc = some (1 + 2) ∧
    (energyElecVhf ["e"] (energyElecVhf ["e"] (fun _ => VhfArr.mk 0 (some 1))
        (fun _ => TagArr.mk 0 (some (2, 0)))) (fun _ => TagArr.mk 0 (some (2, 0)))
        "e").exc = some (1 + 2 + 2) := by
  refine ⟨by simp, by simp, rfl, rfl, ?_⟩
  exact energy_elec_vhf_mutation ["e"] (fun _ => VhfArr.mk 0 (some 1))
    (fun _ => TagArr.mk 0 (some (2, 0))) "e" 1 2 0 (by simp) (by simp) rfl rfl
